import Mathlib

/-
Verification of the in-memory IOx catalog (`iox_catalog/src/mem.rs`), the
tombstone cache (`querier/src/cache/tombstones.rs`), the predicate
normaliser surface (`predicate/src/rpc_predicate.rs`) and the read-group
aggregate construction (`iox_query/src/frontend/influxrpc.rs`).

The Rust code is shallowly embedded: 64-bit machine integers (ids,
timestamps, sequence numbers, i32 limits) become `Int`; `Vec<T>` becomes
`List T`; `Option<T>` becomes `Option T`; fallible repository methods
return `Except Error (result × state)`.  Rust's std `HashMap` iteration
order (used by the two candidate-partition policies) is made explicit as a
key-enumeration-order parameter; the deterministic instantiation uses
first-appearance (insertion) order.  Rust's stable `sort_by` is embedded
as a stable insertion sort.
-/

namespace Iox

/-! ## Data model (`data_types`) -/

structure TopicMetadata where
  id : Int
  name : String
deriving DecidableEq, Repr

structure QueryPool where
  id : Int
  name : String
deriving DecidableEq, Repr

structure Namespace where
  id : Int
  name : String
  topic_id : Int
  query_pool_id : Int
  retention_duration : Option String
  max_tables : Int
  max_columns_per_table : Int
deriving DecidableEq, Repr

structure Table where
  id : Int
  namespace_id : Int
  name : String
deriving DecidableEq, Repr

inductive ColumnType where
  | i64 | u64 | f64 | bool | string | time | tag
deriving DecidableEq, Repr

structure Column where
  id : Int
  table_id : Int
  name : String
  column_type : ColumnType
deriving DecidableEq, Repr

structure Shard where
  id : Int
  topic_id : Int
  shard_index : Int
  min_unpersisted_sequence_number : Int
deriving DecidableEq, Repr

structure Partition where
  id : Int
  shard_id : Int
  table_id : Int
  partition_key : String
  sort_key : List String
  persisted_sequence_number : Option Int
deriving DecidableEq, Repr

structure SkippedCompaction where
  partition_id : Int
  reason : String
  skipped_at : Int
deriving DecidableEq, Repr

structure Tombstone where
  id : Int
  table_id : Int
  shard_id : Int
  sequence_number : Int
  min_time : Int
  max_time : Int
  serialized_predicate : String
deriving DecidableEq, Repr

inductive CompactionLevel where
  | initial
  | fileNonOverlapped
deriving DecidableEq, Repr

structure ParquetFile where
  id : Int
  shard_id : Int
  namespace_id : Int
  table_id : Int
  partition_id : Int
  object_store_id : Nat
  max_sequence_number : Int
  min_time : Int
  max_time : Int
  row_count : Int
  to_delete : Option Int
  file_size_bytes : Int
  compaction_level : CompactionLevel
  created_at : Int
  column_set : List Int
deriving DecidableEq, Repr

structure ParquetFileParams where
  shard_id : Int
  namespace_id : Int
  table_id : Int
  partition_id : Int
  object_store_id : Nat
  max_sequence_number : Int
  min_time : Int
  max_time : Int
  file_size_bytes : Int
  row_count : Int
  compaction_level : CompactionLevel
  created_at : Int
  column_set : List Int
deriving DecidableEq, Repr

structure ProcessedTombstone where
  tombstone_id : Int
  parquet_file_id : Int
deriving DecidableEq, Repr

structure PartitionParam where
  partition_id : Int
  shard_id : Int
  namespace_id : Int
  table_id : Int
deriving DecidableEq, Repr

structure TablePartition where
  shard_id : Int
  table_id : Int
  partition_id : Int
deriving DecidableEq, Repr

/-- The error taxonomy of `iox_catalog::interface::Error` (the variants the
embedded operations can produce). -/
inductive Error where
  | nameExists (name : String)
  | namespaceNotFoundByName (name : String)
  | tableNotFound (id : Int)
  | tableCreateLimitError (table_name : String) (namespace_id : Int)
  | columnCreateLimitError (column_name : String) (table_id : Int)
  | columnTypeMismatch (name : String) (existing : ColumnType) (new : ColumnType)
  | partitionNotFound (id : Int)
  | tombstoneNotFound (id : Int)
  | fileExists (object_store_id : Nat)
  | fileNotFound (id : Int)
  | parquetRecordNotFound (id : Int)
  | processTombstoneExists (parquet_file_id : Int) (tombstone_id : Int)
deriving DecidableEq, Repr

/-- `MemCollections` from `mem.rs`: the whole in-memory store.  All fields
default to empty, mirroring `#[derive(Default)]`. -/
structure MemCollections where
  topics : List TopicMetadata := []
  query_pools : List QueryPool := []
  namespaces : List Namespace := []
  tables : List Table := []
  columns : List Column := []
  shards : List Shard := []
  partitions : List Partition := []
  skipped_compactions : List SkippedCompaction := []
  tombstones : List Tombstone := []
  parquet_files : List ParquetFile := []
  processed_tombstones : List ProcessedTombstone := []
deriving DecidableEq, Repr

deriving instance DecidableEq for Except

/-- Result type of a catalog mutation: the returned value plus the updated
store (`self.stage()` is mutated in place in Rust). -/
abbrev RepoResult (α : Type) := Except Error (α × MemCollections)

/-- The `match ... find ... { Some => reuse, None => push; last().unwrap() }`
pattern shared verbatim by every `create_or_get` in `mem.rs`.  The freshly
constructed entity gets `len() as i64 + 1` as its id, which the caller bakes
into `mk`. -/
def findOrPush {α : Type} (p : α → Bool) (mk : Nat → α) (l : List α) : α × List α :=
  match l.find? p with
  | some x => (x, l)
  | none => (mk l.length, l ++ [mk l.length])

/-! ## Repositories (`mem.rs`) -/

namespace TopicMetadataRepo

/-- `TopicMetadataRepo::create_or_get` (mem.rs:235). -/
def create_or_get (name : String) (s : MemCollections) : RepoResult TopicMetadata :=
  let r := findOrPush (fun t => t.name == name)
    (fun len => { id := (len : Int) + 1, name := name }) s.topics
  .ok (r.1, { s with topics := r.2 })

end TopicMetadataRepo

namespace QueryPoolRepo

/-- `QueryPoolRepo::create_or_get` (mem.rs:263). -/
def create_or_get (name : String) (s : MemCollections) : RepoResult QueryPool :=
  let r := findOrPush (fun t => t.name == name)
    (fun len => { id := (len : Int) + 1, name := name }) s.query_pools
  .ok (r.1, { s with query_pools := r.2 })

end QueryPoolRepo

namespace NamespaceRepo

/-- `NamespaceRepo::create` (mem.rs:284): duplicate names are rejected, the
caps are the constants 10000 / 1000, retention is stored as `Some`. -/
def create (name retention_duration : String) (topic_id query_pool_id : Int)
    (s : MemCollections) : RepoResult Namespace :=
  if s.namespaces.any (fun n => n.name == name) then
    .error (.nameExists name)
  else
    let n : Namespace :=
      { id := (s.namespaces.length : Int) + 1
        name := name
        topic_id := topic_id
        query_pool_id := query_pool_id
        retention_duration := some retention_duration
        max_tables := 10000
        max_columns_per_table := 1000 }
    .ok (n, { s with namespaces := s.namespaces ++ [n] })

/-- Replace the first element satisfying `p` (Rust `iter_mut().find`). -/
def updateFirst {α : Type} (p : α → Bool) (f : α → α) : List α → List α
  | [] => []
  | x :: xs => if p x then f x :: xs else x :: updateFirst p f xs

/-- `NamespaceRepo::update_table_limit` (mem.rs:330). -/
def update_table_limit (name : String) (new_max : Int) (s : MemCollections) :
    RepoResult Namespace :=
  match s.namespaces.find? (fun n => n.name == name) with
  | some n =>
    let namespaces := updateFirst (fun n => n.name == name)
      (fun n => { n with max_tables := new_max }) s.namespaces
    .ok ({ n with max_tables := new_max }, { s with namespaces := namespaces })
  | none => .error (.namespaceNotFoundByName name)

/-- `NamespaceRepo::update_column_limit` (mem.rs:343). -/
def update_column_limit (name : String) (new_max : Int) (s : MemCollections) :
    RepoResult Namespace :=
  match s.namespaces.find? (fun n => n.name == name) with
  | some n =>
    let namespaces := updateFirst (fun n => n.name == name)
      (fun n => { n with max_columns_per_table := new_max }) s.namespaces
    .ok ({ n with max_columns_per_table := new_max }, { s with namespaces := namespaces })
  | none => .error (.namespaceNotFoundByName name)

end NamespaceRepo

namespace TableRepo

/-- `TableRepo::create_or_get` (mem.rs:359).  Note that the table-count cap
is checked BEFORE the lookup of an existing table with the same natural
key, exactly as in the source. -/
def create_or_get (name : String) (namespace_id : Int) (s : MemCollections) :
    RepoResult Table :=
  match s.namespaces.find? (fun n => n.id == namespace_id) with
  | none => .error (.namespaceNotFoundByName "")
  | some n =>
    let tables_count := (s.tables.filter (fun t => t.namespace_id == namespace_id)).length
    if n.max_tables ≤ (tables_count : Int) then
      .error (.tableCreateLimitError name namespace_id)
    else
      let r := findOrPush (fun t => t.name == name && t.namespace_id == namespace_id)
        (fun len => { id := (len : Int) + 1, namespace_id := namespace_id, name := name })
        s.tables
      .ok (r.1, { s with tables := r.2 })

end TableRepo

namespace ColumnRepo

/-- `ColumnRepo::create_or_get` (mem.rs:480).  The column cap is checked
before the natural-key lookup; a type conflict on an existing column fails
with `ColumnTypeMismatch`. -/
def create_or_get (name : String) (table_id : Int) (column_type : ColumnType)
    (s : MemCollections) : RepoResult Column :=
  match s.tables.find? (fun t => t.id == table_id) with
  | none => .error (.tableNotFound table_id)
  | some t =>
    match s.namespaces.find? (fun n => n.id == t.namespace_id) with
    | none => .error (.namespaceNotFoundByName "")
    | some n =>
      let columns_count := (s.columns.filter (fun c => c.table_id == table_id)).length
      if n.max_columns_per_table ≤ (columns_count : Int) then
        .error (.columnCreateLimitError name table_id)
      else
        match s.columns.find? (fun c => c.name == name && c.table_id == table_id) with
        | some c =>
          if column_type == c.column_type then .ok (c, s)
          else .error (.columnTypeMismatch name c.column_type column_type)
        | none =>
          let c : Column :=
            { id := (s.columns.length : Int) + 1
              table_id := table_id
              name := name
              column_type := column_type }
          .ok (c, { s with columns := s.columns ++ [c] })

end ColumnRepo

namespace ShardRepo

/-- `ShardRepo::create_or_get` (mem.rs:640). -/
def create_or_get (topic : TopicMetadata) (shard_index : Int) (s : MemCollections) :
    RepoResult Shard :=
  let r := findOrPush (fun sh => sh.topic_id == topic.id && sh.shard_index == shard_index)
    (fun len =>
      { id := (len : Int) + 1
        topic_id := topic.id
        shard_index := shard_index
        min_unpersisted_sequence_number := 0 }) s.shards
  .ok (r.1, { s with shards := r.2 })

/-- `ShardRepo::update_min_unpersisted_sequence_number` (mem.rs:701). -/
def update_min_unpersisted_sequence_number (shard_id sequence_number : Int)
    (s : MemCollections) : RepoResult Unit :=
  let shards := NamespaceRepo.updateFirst (fun sh => sh.id == shard_id)
    (fun sh => { sh with min_unpersisted_sequence_number := sequence_number }) s.shards
  .ok ((), { s with shards := shards })

end ShardRepo

namespace PartitionRepo

/-- `PartitionRepo::create_or_get` (mem.rs:718). -/
def create_or_get (key : String) (shard_id table_id : Int) (s : MemCollections) :
    RepoResult Partition :=
  let r := findOrPush
    (fun p => p.partition_key == key && p.shard_id == shard_id && p.table_id == table_id)
    (fun len =>
      { id := (len : Int) + 1
        shard_id := shard_id
        table_id := table_id
        partition_key := key
        sort_key := []
        persisted_sequence_number := none }) s.partitions
  .ok (r.1, { s with partitions := r.2 })

/-- `PartitionRepo::update_sort_key` (mem.rs:836). -/
def update_sort_key (partition_id : Int) (sort_key : List String) (s : MemCollections) :
    RepoResult Partition :=
  match s.partitions.find? (fun p => p.id == partition_id) with
  | some p =>
    let partitions := NamespaceRepo.updateFirst (fun p => p.id == partition_id)
      (fun p => { p with sort_key := sort_key }) s.partitions
    .ok ({ p with sort_key := sort_key }, { s with partitions := partitions })
  | none => .error (.partitionNotFound partition_id)

/-- `PartitionRepo::record_skipped_compaction` (mem.rs:851); `now` stands
for `self.time_provider.now()`. -/
def record_skipped_compaction (partition_id : Int) (reason : String) (now : Int)
    (s : MemCollections) : RepoResult Unit :=
  if s.skipped_compactions.any (fun sc => sc.partition_id == partition_id) then
    let skipped := NamespaceRepo.updateFirst (fun sc => sc.partition_id == partition_id)
      (fun sc => { sc with reason := reason, skipped_at := now }) s.skipped_compactions
    .ok ((), { s with skipped_compactions := skipped })
  else
    let skipped := s.skipped_compactions
      ++ [{ partition_id := partition_id, reason := reason, skipped_at := now }]
    .ok ((), { s with skipped_compactions := skipped })

/-- `PartitionRepo::update_persisted_sequence_number` (mem.rs:883). -/
def update_persisted_sequence_number (partition_id sequence_number : Int)
    (s : MemCollections) : RepoResult Unit :=
  if s.partitions.any (fun p => p.id == partition_id) then
    let partitions := NamespaceRepo.updateFirst (fun p => p.id == partition_id)
      (fun p => { p with persisted_sequence_number := some sequence_number }) s.partitions
    .ok ((), { s with partitions := partitions })
  else .error (.partitionNotFound partition_id)

end PartitionRepo

namespace TombstoneRepo

/-- `TombstoneRepo::create_or_get` (mem.rs:901). -/
def create_or_get (table_id shard_id sequence_number min_time max_time : Int)
    (predicate : String) (s : MemCollections) : RepoResult Tombstone :=
  let r := findOrPush
    (fun t => t.table_id == table_id && t.shard_id == shard_id
      && t.sequence_number == sequence_number)
    (fun len =>
      { id := (len : Int) + 1
        table_id := table_id
        shard_id := shard_id
        sequence_number := sequence_number
        min_time := min_time
        max_time := max_time
        serialized_predicate := predicate }) s.tombstones
  .ok (r.1, { s with tombstones := r.2 })

/-- `TombstoneRepo::remove` (mem.rs:985): drops the processed tombstones
that reference any of the ids, then the tombstones themselves. -/
def remove (tombstone_ids : List Int) (s : MemCollections) : RepoResult Unit :=
  let processed := s.processed_tombstones.filter
    (fun pt => !(tombstone_ids.any (fun i => i == pt.tombstone_id)))
  let tombstones := s.tombstones.filter
    (fun ts => !(tombstone_ids.any (fun i => i == ts.id)))
  .ok ((), { s with processed_tombstones := processed, tombstones := tombstones })

/-- The overlap disjunction used by `list_tombstones_for_time_range`
(mem.rs:1018), `level_1` (mem.rs:1193) and the two overlap counters:
`(t.min_time <= min && t.max_time >= min) || (t.min_time > min && t.min_time <= max)`. -/
def overlapsDisjunction (t_min t_max q_min q_max : Int) : Bool :=
  (t_min ≤ q_min && t_max ≥ q_min) || (t_min > q_min && t_min ≤ q_max)

/-- `TombstoneRepo::list_tombstones_for_time_range` (mem.rs:1001); a pure
read, the store is unchanged and the Rust `Result` is always `Ok`. -/
def list_tombstones_for_time_range (shard_id table_id sequence_number min_time max_time : Int)
    (s : MemCollections) : List Tombstone :=
  s.tombstones.filter (fun t =>
    t.shard_id == shard_id && t.table_id == table_id
      && t.sequence_number > sequence_number
      && overlapsDisjunction t.min_time t.max_time min_time max_time)

/-- `TombstoneRepo::list_by_table` (mem.rs:951). -/
def list_by_table (table_id : Int) (s : MemCollections) : List Tombstone :=
  s.tombstones.filter (fun t => t.table_id == table_id)

end TombstoneRepo

namespace ParquetFileRepo

/-- `ParquetFileRepo::create` (mem.rs:1029): duplicate `object_store_id`
is rejected with `FileExists`; the new row gets `to_delete = None` and id
`len + 1`. -/
def create (p : ParquetFileParams) (s : MemCollections) : RepoResult ParquetFile :=
  if s.parquet_files.any (fun f => f.object_store_id == p.object_store_id) then
    .error (.fileExists p.object_store_id)
  else
    let f : ParquetFile :=
      { id := (s.parquet_files.length : Int) + 1
        shard_id := p.shard_id
        namespace_id := p.namespace_id
        table_id := p.table_id
        partition_id := p.partition_id
        object_store_id := p.object_store_id
        max_sequence_number := p.max_sequence_number
        min_time := p.min_time
        max_time := p.max_time
        row_count := p.row_count
        to_delete := none
        file_size_bytes := p.file_size_bytes
        compaction_level := p.compaction_level
        created_at := p.created_at
        column_set := p.column_set }
    .ok (f, { s with parquet_files := s.parquet_files ++ [f] })

/-- `ParquetFileRepo::flag_for_delete` (mem.rs:1078); `now` stands for
`self.time_provider.now()`. -/
def flag_for_delete (id now : Int) (s : MemCollections) : RepoResult Unit :=
  if s.parquet_files.any (fun f => f.id == id) then
    let parquet_files := NamespaceRepo.updateFirst (fun f => f.id == id)
      (fun f => { f with to_delete := some now }) s.parquet_files
    .ok ((), { s with parquet_files := parquet_files })
  else .error (.parquetRecordNotFound id)

/-- The predicate of `delete_old` (mem.rs:1142):
`matches!(f.to_delete, Some(marked) if marked < older_than)`. -/
def deleteOldPred (older_than : Int) (f : ParquetFile) : Bool :=
  match f.to_delete with
  | some marked_deleted => marked_deleted < older_than
  | none => false

/-- `ParquetFileRepo::delete_old` (mem.rs:1138): partitions the files,
keeps the non-matching ones and returns the deleted ones. -/
def delete_old (older_than : Int) (s : MemCollections) :
    RepoResult (List ParquetFile) :=
  let del := s.parquet_files.filter (deleteOldPred older_than)
  let keep := s.parquet_files.filter (fun f => !(deleteOldPred older_than f))
  .ok (del, { s with parquet_files := keep })

/-- `ParquetFileRepo::level_0` (mem.rs:1161); a pure read. -/
def level_0 (shard_id : Int) (s : MemCollections) : List ParquetFile :=
  s.parquet_files.filter (fun f =>
    f.shard_id == shard_id && f.compaction_level == CompactionLevel.initial
      && f.to_delete == none)

/-- `ParquetFileRepo::level_1` (mem.rs:1176); a pure read using the same
overlap disjunction as `list_tombstones_for_time_range`. -/
def level_1 (tp : TablePartition) (min_time max_time : Int) (s : MemCollections) :
    List ParquetFile :=
  s.parquet_files.filter (fun f =>
    f.shard_id == tp.shard_id && f.table_id == tp.table_id
      && f.partition_id == tp.partition_id
      && f.compaction_level == CompactionLevel.fileNonOverlapped
      && f.to_delete == none
      && TombstoneRepo.overlapsDisjunction f.min_time f.max_time min_time max_time)

/-- `ParquetFileRepo::update_compaction_level` (mem.rs:1343): sets the
level on every file whose id is listed and returns the ids actually hit,
in store order. -/
def update_compaction_level (parquet_file_ids : List Int) (compaction_level : CompactionLevel)
    (s : MemCollections) : RepoResult (List Int) :=
  let updated := ((s.parquet_files.filter (fun f => parquet_file_ids.contains f.id)).map
    (fun f => f.id))
  let parquet_files := s.parquet_files.map (fun f =>
    if parquet_file_ids.contains f.id then { f with compaction_level := compaction_level }
    else f)
  .ok (updated, { s with parquet_files := parquet_files })

/-- The `PartitionParam` built from a file by both candidate-partition
policies (mem.rs:1221 and mem.rs:1286). -/
def pfPartitionParam (f : ParquetFile) : PartitionParam :=
  { partition_id := f.partition_id
    shard_id := f.shard_id
    namespace_id := f.namespace_id
    table_id := f.table_id }

/-- File filter of `recent_highest_throughput_partitions` (mem.rs:1215):
on the shard, recent, level 0, not deleted. -/
def recentFileFilter (shard_id recent_time : Int) (f : ParquetFile) : Bool :=
  f.shard_id == shard_id && f.created_at > recent_time
    && f.compaction_level == CompactionLevel.initial && f.to_delete == none

/-- The multiset of partition params of the selected files (mem.rs:1212),
whose duplicate count per key is the per-partition file count. -/
def recentPartitionList (shard_id time_in_the_past : Int) (s : MemCollections) :
    List PartitionParam :=
  (s.parquet_files.filter (recentFileFilter shard_id time_in_the_past)).map pfPartitionParam

/-- Stable insert for a descending sort by rank, mirroring one step of
Rust's stable `sort_by(|a, b| b.1.cmp(a.1))`. -/
def insertRankDesc {α β : Type} [LinearOrder β] (rank : α → β) (x : α) :
    List α → List α
  | [] => [x]
  | y :: ys => if rank y ≤ rank x then x :: y :: ys else y :: insertRankDesc rank x ys

/-- Stable descending sort by rank (Rust `sort_by(|a, b| b.1.cmp(a.1))`,
which is a stable sort). -/
def sortRankDesc {α β : Type} [LinearOrder β] (rank : α → β) : List α → List α
  | [] => []
  | x :: xs => insertRankDesc rank x (sortRankDesc rank xs)

/-- The grouped, thresholded rows of
`recent_highest_throughput_partitions` (mem.rs:1230-1248): each key of
`partition_duplicate_count` (enumerated in `keys` order) with its
duplicate count, kept when the count reaches `min_num_files` and the
partition is not in `skipped_compactions`. -/
def recentQualifyingPairs (shard_id time_in_the_past : Int) (min_num_files : Nat)
    (keys : List PartitionParam) (s : MemCollections) : List (PartitionParam × Nat) :=
  let parts := recentPartitionList shard_id time_in_the_past s
  let skipped_partitions := s.skipped_compactions.map (fun sc => sc.partition_id)
  (keys.map (fun p => (p, parts.count p))).filter
    (fun x => min_num_files ≤ x.2 && !(skipped_partitions.contains x.1.partition_id))

/-- `ParquetFileRepo::recent_highest_throughput_partitions` (mem.rs:1200),
parametrised by `keys`: the order in which the std `HashMap`
`partition_duplicate_count` enumerates its keys.  Rust's `HashMap` uses a
randomised hash seed, so `keys` may be any enumeration of the distinct
partition params. -/
def recent_highest_throughput_partitions_keyed (shard_id time_in_the_past : Int)
    (min_num_files num_partitions : Nat) (keys : List PartitionParam)
    (s : MemCollections) : List PartitionParam :=
  ((sortRankDesc (fun x : PartitionParam × Nat => x.2)
      (recentQualifyingPairs shard_id time_in_the_past min_num_files keys s)).map
    (fun x => x.1)).take num_partitions

/-- `keys` is an admissible `HashMap` enumeration order: some permutation
of the distinct keys of the grouped map. -/
def admissibleKeys (parts keys : List PartitionParam) : Prop :=
  keys.Perm parts.dedup

/-- The deterministic instantiation of
`recent_highest_throughput_partitions`: keys enumerated in first-appearance
order. -/
def recent_highest_throughput_partitions (shard_id time_in_the_past : Int)
    (min_num_files num_partitions : Nat) (s : MemCollections) : List PartitionParam :=
  recent_highest_throughput_partitions_keyed shard_id time_in_the_past min_num_files
    num_partitions (recentPartitionList shard_id time_in_the_past s).dedup s

/-- File filter of `most_cold_files_partitions` (mem.rs:1273): on the
shard, level 0 or level 1, not deleted. -/
def coldFileFilter (shard_id : Int) (f : ParquetFile) : Bool :=
  f.shard_id == shard_id
    && (f.compaction_level == CompactionLevel.initial
      || f.compaction_level == CompactionLevel.fileNonOverlapped)
    && f.to_delete == none

/-- Per-key maximum `created_at` over the relevant files
(`partition_max_created_at`, mem.rs:1284). -/
def coldMaxCreatedAt (key : PartitionParam) (files : List ParquetFile) : Option Int :=
  ((files.filter (fun f => pfPartitionParam f == key)).map (fun f => f.created_at)).max?

/-- `ParquetFileRepo::most_cold_files_partitions` (mem.rs:1263),
parametrised by the `HashMap` key enumeration order as above.  Counts are
`i32` in the source.  The `unwrap` of `partition_max_created_at.get(k)`
cannot fail for keys of the map; for an out-of-map key the embedding keeps
the row out (the branch is unreachable for admissible keys). -/
def most_cold_files_partitions_keyed (shard_id time_in_the_past : Int)
    (num_partitions : Nat) (keys : List PartitionParam) (s : MemCollections) :
    List PartitionParam :=
  let relevant := s.parquet_files.filter (coldFileFilter shard_id)
  let parts := relevant.map pfPartitionParam
  let pairs := (keys.map (fun p => (p, (parts.count p : Int)))).filter
    (fun x => match coldMaxCreatedAt x.1 relevant with
      | some m => m < time_in_the_past
      | none => false)
  let sorted := sortRankDesc (fun x : PartitionParam × Int => x.2) pairs
  let skipped_partitions := s.skipped_compactions.map (fun sc => sc.partition_id)
  (((sorted.map (fun x => x.1)).filter
    (fun p => !(skipped_partitions.contains p.partition_id))).take num_partitions)

/-- Deterministic instantiation of `most_cold_files_partitions`. -/
def most_cold_files_partitions (shard_id time_in_the_past : Int)
    (num_partitions : Nat) (s : MemCollections) : List PartitionParam :=
  most_cold_files_partitions_keyed shard_id time_in_the_past num_partitions
    ((s.parquet_files.filter (coldFileFilter shard_id)).map pfPartitionParam).dedup s

end ParquetFileRepo

namespace ProcessedTombstoneRepo

/-- `ProcessedTombstoneRepo::create` (mem.rs:1449): both sides must exist
and the pair must be new. -/
def create (parquet_file_id tombstone_id : Int) (s : MemCollections) :
    RepoResult ProcessedTombstone :=
  if !(s.parquet_files.any (fun f => f.id == parquet_file_id)) then
    .error (.fileNotFound parquet_file_id)
  else if !(s.tombstones.any (fun f => f.id == tombstone_id)) then
    .error (.tombstoneNotFound tombstone_id)
  else if s.processed_tombstones.any
      (fun pt => pt.tombstone_id == tombstone_id && pt.parquet_file_id == parquet_file_id) then
    .error (.processTombstoneExists parquet_file_id tombstone_id)
  else
    let pt : ProcessedTombstone :=
      { tombstone_id := tombstone_id, parquet_file_id := parquet_file_id }
    .ok (pt, { s with processed_tombstones := s.processed_tombstones ++ [pt] })

end ProcessedTombstoneRepo

/-! ## Transactions (`mem.rs`: `MemTxn`, `TransactionFinalize`) -/

/-- The `Txn` variant of `MemTxnInner`: the exclusively locked live store
(`guard`), the private staging copy (`stage`, a clone of the live store at
`start_transaction`) and the `finalized` flag. -/
structure MemTxn where
  guard : MemCollections
  stage : MemCollections
  finalized : Bool
deriving DecidableEq, Repr

/-- `Catalog::start_transaction` (mem.rs:120): clone the live store into
the stage. -/
def startTransaction (live : MemCollections) : MemTxn :=
  { guard := live, stage := live, finalized := false }

/-- `TransactionFinalize::commit_inplace` (mem.rs:158):
`**guard = std::mem::take(stage)` — the staged store atomically replaces
the live one. -/
def commitInplace (t : MemTxn) : MemTxn :=
  { guard := t.stage, stage := {}, finalized := true }

/-- `TransactionFinalize::abort_inplace` (mem.rs:176): the stage is
discarded, the live store is untouched. -/
def abortInplace (t : MemTxn) : MemTxn :=
  { t with finalized := true }

/-- `Drop for MemTxn` (mem.rs:102): releasing the transaction yields the
live store held behind the guard, plus `true` when the drop had to warn
(dropped without commit or abort). -/
def dropTxn (t : MemTxn) : MemCollections × Bool :=
  (t.guard, !t.finalized)

/-- A catalog mutation, used to quantify over arbitrary transaction
workloads (the mutating methods of `mem.rs` embedded above). -/
inductive CatalogOp where
  | topicsCreateOrGet (name : String)
  | queryPoolsCreateOrGet (name : String)
  | namespacesCreate (name retention : String) (topic_id query_pool_id : Int)
  | namespacesUpdateTableLimit (name : String) (new_max : Int)
  | namespacesUpdateColumnLimit (name : String) (new_max : Int)
  | tablesCreateOrGet (name : String) (namespace_id : Int)
  | columnsCreateOrGet (name : String) (table_id : Int) (column_type : ColumnType)
  | shardsCreateOrGet (topic : TopicMetadata) (shard_index : Int)
  | shardsUpdateMinUnpersisted (shard_id sequence_number : Int)
  | partitionsCreateOrGet (key : String) (shard_id table_id : Int)
  | partitionsUpdateSortKey (partition_id : Int) (sort_key : List String)
  | partitionsRecordSkippedCompaction (partition_id : Int) (reason : String) (now : Int)
  | partitionsUpdatePersistedSequenceNumber (partition_id sequence_number : Int)
  | tombstonesCreateOrGet (table_id shard_id sequence_number min_time max_time : Int)
      (predicate : String)
  | tombstonesRemove (ids : List Int)
  | parquetFilesCreate (params : ParquetFileParams)
  | parquetFlagForDelete (id now : Int)
  | parquetDeleteOld (older_than : Int)
  | parquetUpdateCompactionLevel (ids : List Int) (level : CompactionLevel)
  | processedTombstonesCreate (parquet_file_id tombstone_id : Int)
deriving DecidableEq, Repr

/-- State effect of one catalog mutation.  Every method of `mem.rs`
returns before mutating on its error paths, so an erroring call leaves the
store unchanged. -/
def applyOpState (op : CatalogOp) (s : MemCollections) : MemCollections :=
  let keep {α : Type} : RepoResult α → MemCollections := fun r =>
    match r with
    | .ok x => x.2
    | .error _ => s
  match op with
  | .topicsCreateOrGet name => keep (TopicMetadataRepo.create_or_get name s)
  | .queryPoolsCreateOrGet name => keep (QueryPoolRepo.create_or_get name s)
  | .namespacesCreate name retention tid qid => keep (NamespaceRepo.create name retention tid qid s)
  | .namespacesUpdateTableLimit name new_max => keep (NamespaceRepo.update_table_limit name new_max s)
  | .namespacesUpdateColumnLimit name new_max => keep (NamespaceRepo.update_column_limit name new_max s)
  | .tablesCreateOrGet name nsid => keep (TableRepo.create_or_get name nsid s)
  | .columnsCreateOrGet name tid ct => keep (ColumnRepo.create_or_get name tid ct s)
  | .shardsCreateOrGet topic idx => keep (ShardRepo.create_or_get topic idx s)
  | .shardsUpdateMinUnpersisted sid seq => keep (ShardRepo.update_min_unpersisted_sequence_number sid seq s)
  | .partitionsCreateOrGet key sid tid => keep (PartitionRepo.create_or_get key sid tid s)
  | .partitionsUpdateSortKey pid sk => keep (PartitionRepo.update_sort_key pid sk s)
  | .partitionsRecordSkippedCompaction pid reason now => keep (PartitionRepo.record_skipped_compaction pid reason now s)
  | .partitionsUpdatePersistedSequenceNumber pid seq => keep (PartitionRepo.update_persisted_sequence_number pid seq s)
  | .tombstonesCreateOrGet tid sid seq mn mx pr => keep (TombstoneRepo.create_or_get tid sid seq mn mx pr s)
  | .tombstonesRemove ids => keep (TombstoneRepo.remove ids s)
  | .parquetFilesCreate params => keep (ParquetFileRepo.create params s)
  | .parquetFlagForDelete id now => keep (ParquetFileRepo.flag_for_delete id now s)
  | .parquetDeleteOld older_than => keep (ParquetFileRepo.delete_old older_than s)
  | .parquetUpdateCompactionLevel ids level => keep (ParquetFileRepo.update_compaction_level ids level s)
  | .processedTombstonesCreate pfid tsid => keep (ProcessedTombstoneRepo.create pfid tsid s)

/-- Fold a workload over a store (`RepoCollection` calls against one
handle, in order). -/
def applyOps (ops : List CatalogOp) (s : MemCollections) : MemCollections :=
  ops.foldl (fun s op => applyOpState op s) s

/-- Run a workload against a transaction: every mutation goes to the
private stage (`MemTxn::stage()` returns the staging copy in the `Txn`
variant); the live store behind the guard is untouched. -/
def txnApplyOps (ops : List CatalogOp) (t : MemTxn) : MemTxn :=
  { t with stage := applyOps ops t.stage }

/-- Does the operation update a namespace cap
(`update_table_limit` / `update_column_limit`)? -/
def CatalogOp.isLimitUpdate : CatalogOp → Bool
  | .namespacesUpdateTableLimit _ _ => true
  | .namespacesUpdateColumnLimit _ _ => true
  | _ => false

/-! ## Tombstone cache (`querier/src/cache/tombstones.rs`) -/

/-- `CachedTombstones::max_tombstone_sequence_number`
(tombstones.rs:65): greatest sequence number in the entry, `None` when the
cached list is empty. -/
def max_tombstone_sequence_number (cached : List Tombstone) : Option Int :=
  (cached.map (fun t => t.sequence_number)).max?

/-- The invalidation predicate passed to `remove_if_and_get` by
`TombstoneCache::get` (tombstones.rs:186-200). -/
def tombstoneCacheShouldRemove (cached : List Tombstone) (max_seen : Option Int) : Bool :=
  match max_seen with
  | some m =>
    match max_tombstone_sequence_number cached with
    | some max_cached => max_cached < m
    | none => true
  | none => false

/-- A tombstone-cache state: table id to cached tombstone list. -/
abbrev TombstoneCacheState := List (Int × List Tombstone)

/-- Modelled from the spec: the `cache_system` driver behind
`remove_if_and_get` (crate `cache_system`, not part of the excerpt) —
remove the entry when the predicate holds on the cached value, then get,
loading through `tombstones.list_by_table` on a miss and storing the
loaded value.  Returns the value, the new cache state, and whether the
loader ran. -/
def tombstoneCacheGet (s : MemCollections) (cache : TombstoneCacheState)
    (table_id : Int) (max_seen : Option Int) :
    List Tombstone × TombstoneCacheState × Bool :=
  match cache.find? (fun e => e.1 == table_id) with
  | some e =>
    if tombstoneCacheShouldRemove e.2 max_seen then
      let loaded := TombstoneRepo.list_by_table table_id s
      (loaded,
        NamespaceRepo.updateFirst (fun x => x.1 == table_id) (fun _ => (table_id, loaded)) cache,
        true)
    else (e.2, cache, false)
  | none =>
    let loaded := TombstoneRepo.list_by_table table_id s
    (loaded, cache ++ [(table_id, loaded)], true)

/-! ## Predicate normaliser surface (`predicate/src/rpc_predicate.rs`) -/

/-- `InfluxRpcPredicate`: optional table-name restriction (the `BTreeSet`
is embedded as the list of its elements in iteration order) plus the inner
predicate.  The predicate type is abstract (`Predicate` lives outside the
excerpt). -/
structure InfluxRpcPredicate (π : Type) where
  table_names : Option (List String)
  inner : π

/-- The per-table body of `table_predicates` (rpc_predicate.rs:114-127):
with a schema the inner predicate is normalised (which may fail); without
one the unnormalised inner predicate is paired with the name.  The
left-to-right short-circuit `collect::<Result<Vec<_>>>` is the recursion. -/
def tablePredicatesAux {σ π ε : Type} (normalize : String → σ → π → Except ε π)
    (inner : π) (table_schema : String → Option σ) :
    List String → Except ε (List (String × π))
  | [] => .ok []
  | t :: ts => do
    let p ← match table_schema t with
      | some schema => normalize t schema inner
      | none => .ok inner
    let rest ← tablePredicatesAux normalize inner table_schema ts
    .ok ((t, p) :: rest)

/-- `InfluxRpcPredicate::table_predicates` (rpc_predicate.rs:104):
iterate the restriction set if present, else `table_info.table_names()`. -/
def table_predicates {σ π ε : Type} (normalize : String → σ → π → Except ε π)
    (pred : InfluxRpcPredicate π) (meta_table_names : List String)
    (table_schema : String → Option σ) : Except ε (List (String × π)) :=
  let table_names := match pred.table_names with
    | some table_names => table_names
    | none => meta_table_names
  tablePredicatesAux normalize pred.inner table_schema table_names

/-! ## Read-group aggregates (`iox_query/src/frontend/influxrpc.rs`) -/

/-- `data_types::Aggregate` as used by the planner. -/
inductive Aggregate where
  | none | sum | count | mean | first | last | min | max
deriving DecidableEq, Repr

/-- `schema::TIME_COLUMN_NAME`. -/
def TIME_COLUMN_NAME : String := "time"

/-- The aggregate-function choice of `make_agg_expr` (influxrpc.rs:1706):
for the time column use `MAX` unless `MIN` was specifically requested. -/
def makeAggExprAggregate (agg : Aggregate) (name : String) : Aggregate :=
  if name == TIME_COLUMN_NAME && agg != Aggregate.min then Aggregate.max else agg

/-- `AggExprs::agg_for_read_group` (influxrpc.rs:1641), reduced to the
(aggregate function, output column) pairs it builds: one `make_agg_expr`
per field passing `should_include_field`, chained with one for the time
column. -/
def aggForReadGroupExprs (agg : Aggregate) (fields : List String)
    (should_include_field : String → Bool) : List (Aggregate × String) :=
  ((fields.filter should_include_field).map (fun f => (makeAggExprAggregate agg f, f)))
    ++ [(makeAggExprAggregate agg TIME_COLUMN_NAME, TIME_COLUMN_NAME)]

/-- `AggExprs::try_new_for_read_group` (influxrpc.rs:1551): only
`Sum`/`Count`/`Mean` take the `agg_for_read_group` path; the selector
aggregates take `selector_aggregates` and `None` is an internal error. -/
def tryNewForReadGroupUsesAggPath : Aggregate → Bool
  | .sum | .count | .mean => true
  | _ => false

/-! ## Concrete scenario states -/

/-- Sequence two catalog calls: feed the state produced by the first into
the second (discarding the first result), short-circuiting on error. -/
def bindState {α β : Type} (x : RepoResult α) (f : MemCollections → RepoResult β) :
    RepoResult β :=
  match x with
  | .ok r => f r.2
  | .error e => .error e

/-- Parameters for an L0 file on shard 1, partition 7, `created_at = 100`
(spec scenario C). -/
def l0FileParams (osid : Nat) : ParquetFileParams :=
  { shard_id := 1
    namespace_id := 1
    table_id := 1
    partition_id := 7
    object_store_id := osid
    max_sequence_number := 0
    min_time := 0
    max_time := 0
    file_size_bytes := 0
    row_count := 0
    compaction_level := .initial
    created_at := 100
    column_set := [] }

/-- Five L0 files for partition 7 on shard 1 with `created_at = 100`
inserted through `ParquetFileRepo::create` (spec scenario C). -/
def fiveL0FilesState : MemCollections :=
  applyOps ([1, 2, 3, 4, 5].map (fun i => .parquetFilesCreate (l0FileParams i))) {}

/-- One L0 file in each of two partitions of the same shard: a tie on file
count. -/
def twoPartitionState : MemCollections :=
  applyOps
    [.parquetFilesCreate { l0FileParams 1 with partition_id := 1 },
     .parquetFilesCreate { l0FileParams 2 with partition_id := 2 }] {}

end Iox

namespace Iox

/-! ## Helper lemmas -/

theorem findOrPush_mk_mem {α : Type} (p : α → Bool) (mk : Nat → α) (l : List α) :
    (findOrPush p mk l).2 = l ∨ (findOrPush p mk l).2 = l ++ [mk l.length] := by
  unfold findOrPush
  cases h : l.find? p <;> simp

theorem findOrPush_idem {α : Type} (p : α → Bool) (mk : Nat → α) (l : List α)
    (hmk : p (mk l.length) = true) :
    findOrPush p mk (findOrPush p mk l).2 = findOrPush p mk l := by
  unfold findOrPush
  cases h : l.find? p with
  | some x => simp [h]
  | none => simp [h, List.find?_append, List.find?_cons, hmk]

end Iox

namespace Iox

/-- C2: a committed transaction publishes exactly the staged mutations;
an aborted or dropped transaction leaves the live store exactly as it was
when the transaction began (and dropping without finalizing warns). -/
theorem transaction_atomicity (live : MemCollections) (ops : List CatalogOp) :
    (txnApplyOps ops (startTransaction live)).guard = live
      ∧ (commitInplace (txnApplyOps ops (startTransaction live))).guard = applyOps ops live
      ∧ (abortInplace (txnApplyOps ops (startTransaction live))).guard = live
      ∧ dropTxn (txnApplyOps ops (startTransaction live)) = (live, true)
      ∧ dropTxn (abortInplace (txnApplyOps ops (startTransaction live))) = (live, false)
      ∧ dropTxn (commitInplace (txnApplyOps ops (startTransaction live)))
          = (applyOps ops live, false) := by
  simp [txnApplyOps, startTransaction, commitInplace, abortInplace, dropTxn]

/-- C9: `make_agg_expr` leaves the requested aggregate unchanged on
non-time columns; on the time column it picks `MAX` unless `Min` was
requested; and on the `read_group` path (`Sum`/`Count`/`Mean`) the
time-column aggregate expression is `MAX` while every non-time field keeps
the requested aggregate. -/
theorem read_group_time_aggregate_rule :
    (∀ agg name, name ≠ TIME_COLUMN_NAME → makeAggExprAggregate agg name = agg)
  ∧ (∀ agg, makeAggExprAggregate agg TIME_COLUMN_NAME
      = if agg = Aggregate.min then Aggregate.min else Aggregate.max)
  ∧ (∀ agg fields should_include_field, tryNewForReadGroupUsesAggPath agg = true →
      (aggForReadGroupExprs agg fields should_include_field).getLast?
          = some (Aggregate.max, TIME_COLUMN_NAME)
        ∧ ∀ a f, (a, f) ∈ aggForReadGroupExprs agg fields should_include_field →
            f ≠ TIME_COLUMN_NAME → a = agg) := by
  refine ⟨?_, ?_, ?_⟩
  · intro agg name hname
    simp [makeAggExprAggregate, hname]
  · intro agg
    cases agg <;> simp [makeAggExprAggregate, TIME_COLUMN_NAME]
  · intro agg fields should_include_field hpath
    have htime : makeAggExprAggregate agg TIME_COLUMN_NAME = Aggregate.max := by
      cases agg <;> simp_all [makeAggExprAggregate, tryNewForReadGroupUsesAggPath]
    constructor
    · simp [aggForReadGroupExprs, htime, List.getLast?_concat]
    · intro a f hmem hf
      simp only [aggForReadGroupExprs, List.mem_append, List.mem_map,
        List.mem_singleton, Prod.mk.injEq] at hmem
      rcases hmem with ⟨g, _, hg, rfl⟩ | ⟨_, hf2⟩
      · subst hg
        simp [makeAggExprAggregate, hf]
      · exact absurd hf2 hf

/-- C9 witness: on the read-group path with `Sum` over one field `v`, the
field keeps `SUM` and the time column gets `MAX`. -/
theorem read_group_time_aggregate_rule_witness :
    makeAggExprAggregate Aggregate.sum "v" = Aggregate.sum
      ∧ (aggForReadGroupExprs Aggregate.sum ["v"] (fun _ => true)).getLast?
          = some (Aggregate.max, TIME_COLUMN_NAME) :=
  ⟨read_group_time_aggregate_rule.1 Aggregate.sum "v" (by decide),
   (read_group_time_aggregate_rule.2.2 Aggregate.sum ["v"] (fun _ => true) (by decide)).1⟩

end Iox

namespace Iox

/-- C5 counterexample: with a well-formed entity range `[2,10]` but a
query pair `(c,d) = (5,1)` with `d < c`, the catalog disjunction holds
while `a ≤ d ∧ c ≤ b` fails, so the claimed equivalence (which assumes
only `a ≤ b`) is false; `list_tombstones_for_time_range` does select such
a row even though its range does not intersect `[5,1]`. -/
theorem overlap_equivalence_fails_for_unordered_query :
    ((2 : Int) ≤ 10)
      ∧ ¬ (TombstoneRepo.overlapsDisjunction 2 10 5 1 = true ↔ ((2 : Int) ≤ 1 ∧ (5 : Int) ≤ 10))
      ∧ TombstoneRepo.list_tombstones_for_time_range 1 1 0 5 1
          { tombstones := [⟨1, 1, 1, 1, 2, 10, "p"⟩] }
          = [⟨1, 1, 1, 1, 2, 10, "p"⟩] := by
  refine ⟨by norm_num, ?_, by decide⟩
  decide

/-- C5 (amended): for `a ≤ b` AND `c ≤ d` the catalog disjunction
`(a ≤ c ∧ b ≥ c) ∨ (a > c ∧ a ≤ d)` is equivalent to `a ≤ d ∧ c ≤ b`, and
consequently `list_tombstones_for_time_range` and `level_1` select exactly
the rows (with well-formed time ranges) whose range intersects the query
range, among those passing the other filters. -/
theorem overlap_predicate_equivalence :
    (∀ a b c d : Int, a ≤ b → c ≤ d →
      (TombstoneRepo.overlapsDisjunction a b c d = true ↔ (a ≤ d ∧ c ≤ b)))
  ∧ (∀ shard table seq qmin qmax s (t : Tombstone), qmin ≤ qmax → t.min_time ≤ t.max_time →
      (t ∈ TombstoneRepo.list_tombstones_for_time_range shard table seq qmin qmax s ↔
        (t ∈ s.tombstones ∧ t.shard_id = shard ∧ t.table_id = table
          ∧ seq < t.sequence_number ∧ t.min_time ≤ qmax ∧ qmin ≤ t.max_time)))
  ∧ (∀ tp qmin qmax s (f : ParquetFile), qmin ≤ qmax → f.min_time ≤ f.max_time →
      (f ∈ ParquetFileRepo.level_1 tp qmin qmax s ↔
        (f ∈ s.parquet_files ∧ f.shard_id = tp.shard_id ∧ f.table_id = tp.table_id
          ∧ f.partition_id = tp.partition_id
          ∧ f.compaction_level = CompactionLevel.fileNonOverlapped ∧ f.to_delete = none
          ∧ f.min_time ≤ qmax ∧ qmin ≤ f.max_time))) := by
  have hov : ∀ a b c d : Int, a ≤ b → c ≤ d →
      (TombstoneRepo.overlapsDisjunction a b c d = true ↔ (a ≤ d ∧ c ≤ b)) := by
    intro a b c d hab hcd
    simp only [TombstoneRepo.overlapsDisjunction, Bool.or_eq_true, Bool.and_eq_true,
      decide_eq_true_eq]
    omega
  refine ⟨hov, ?_, ?_⟩
  · intro shard table seq qmin qmax s t hq ht
    simp only [TombstoneRepo.list_tombstones_for_time_range, List.mem_filter,
      Bool.and_eq_true, beq_iff_eq, decide_eq_true_eq]
    rw [and_congr_right_iff]
    intro _
    rw [hov t.min_time t.max_time qmin qmax ht hq]
    constructor
    · rintro ⟨⟨⟨h1, h2⟩, h3⟩, h4, h5⟩
      exact ⟨h1, h2, h3, h4, h5⟩
    · rintro ⟨h1, h2, h3, h4, h5⟩
      exact ⟨⟨⟨h1, h2⟩, h3⟩, h4, h5⟩
  · intro tp qmin qmax s f hq hf
    simp only [ParquetFileRepo.level_1, List.mem_filter, Bool.and_eq_true, beq_iff_eq]
    rw [and_congr_right_iff]
    intro _
    rw [hov f.min_time f.max_time qmin qmax hf hq]
    constructor
    · rintro ⟨⟨⟨⟨⟨h1, h2⟩, h3⟩, h4⟩, h5⟩, h6, h7⟩
      exact ⟨h1, h2, h3, h4, h5, h6, h7⟩
    · rintro ⟨h1, h2, h3, h4, h5, h6, h7⟩
      exact ⟨⟨⟨⟨⟨h1, h2⟩, h3⟩, h4⟩, h5⟩, h6, h7⟩

/-- C5 witness: scenario D of the spec — a tombstone with range `[10,20]`
overlaps the query `[15,25]`. -/
theorem overlap_predicate_equivalence_witness :
    TombstoneRepo.overlapsDisjunction 10 20 15 25 = true :=
  (overlap_predicate_equivalence.1 10 20 15 25 (by norm_num) (by norm_num)).mpr
    (by norm_num)

end Iox

namespace Iox

/-- C6: with a cache entry present, `get` reloads from the catalog iff a
`max_seen_sequence` is supplied and the entry's maximum tombstone sequence
number is absent or strictly below it; absence of the maximum is
equivalent to the cached list being empty; with `None` the entry is
returned as-is without any reload; a reload returns exactly
`tombstones.list_by_table`. -/
theorem tombstone_cache_conditional_refresh :
    (∀ s cache table_id max_seen e,
      cache.find? (fun x => x.1 == table_id) = some e →
        (((tombstoneCacheGet s cache table_id max_seen).2.2 = true) ↔
          (∃ m, max_seen = some m ∧
            (max_tombstone_sequence_number e.2 = none ∨
              ∃ mc, max_tombstone_sequence_number e.2 = some mc ∧ mc < m)))
        ∧ (max_seen = none → tombstoneCacheGet s cache table_id max_seen = (e.2, cache, false))
        ∧ ((tombstoneCacheGet s cache table_id max_seen).2.2 = true →
            (tombstoneCacheGet s cache table_id max_seen).1
              = TombstoneRepo.list_by_table table_id s))
  ∧ (∀ l, max_tombstone_sequence_number l = none ↔ l = []) := by
  constructor
  · intro s cache table_id max_seen e hfind
    unfold tombstoneCacheGet
    rw [hfind]
    refine ⟨?_, ?_, ?_⟩
    · cases max_seen with
      | none => simp [tombstoneCacheShouldRemove]
      | some m =>
        cases hmax : max_tombstone_sequence_number e.2 with
        | none => simp [tombstoneCacheShouldRemove, hmax]
        | some mc =>
          by_cases hlt : mc < m <;>
            simp [tombstoneCacheShouldRemove, hmax, hlt]
    · intro hnone
      subst hnone
      simp [tombstoneCacheShouldRemove]
    · by_cases hrm : tombstoneCacheShouldRemove e.2 max_seen <;> simp [hrm]
  · intro l
    simp [max_tombstone_sequence_number, List.max?_eq_none_iff]

/-- C6 witness: a cached entry with maximum sequence 2 is reloaded for
`max_seen = some 10` (and the reloaded value is the catalog list), and is
returned as-is for `max_seen = none`. -/
theorem tombstone_cache_conditional_refresh_witness :
    ((tombstoneCacheGet { tombstones := [⟨1, 1, 1, 2, 0, 10, "p"⟩] }
        [(1, [⟨1, 1, 1, 2, 0, 10, "p"⟩])] 1 (some 10)).2.2 = true)
      ∧ tombstoneCacheGet { tombstones := [⟨1, 1, 1, 2, 0, 10, "p"⟩] }
          [(1, [⟨1, 1, 1, 2, 0, 10, "p"⟩])] 1 none
          = ([⟨1, 1, 1, 2, 0, 10, "p"⟩], [(1, [⟨1, 1, 1, 2, 0, 10, "p"⟩])], false) := by
  have h := tombstone_cache_conditional_refresh.1
    { tombstones := [⟨1, 1, 1, 2, 0, 10, "p"⟩] }
    [(1, [⟨1, 1, 1, 2, 0, 10, "p"⟩])] 1 (some 10)
    (1, [⟨1, 1, 1, 2, 0, 10, "p"⟩]) (by decide)
  have h2 := tombstone_cache_conditional_refresh.1
    { tombstones := [⟨1, 1, 1, 2, 0, 10, "p"⟩] }
    [(1, [⟨1, 1, 1, 2, 0, 10, "p"⟩])] 1 none
    (1, [⟨1, 1, 1, 2, 0, 10, "p"⟩]) (by decide)
  refine ⟨h.1.mpr ⟨10, rfl, Or.inr ⟨2, by decide, by norm_num⟩⟩, h2.2.1 rfl⟩

end Iox

namespace Iox

theorem tablePredicatesAux_spec {σ π ε : Type} (normalize : String → σ → π → Except ε π)
    (inner : π) (table_schema : String → Option σ) :
    ∀ (names : List String) (l : List (String × π)),
      tablePredicatesAux normalize inner table_schema names = .ok l →
        l.map Prod.fst = names
          ∧ (∀ t p, (t, p) ∈ l →
              (table_schema t = none → p = inner)
                ∧ (∀ sch, table_schema t = some sch → normalize t sch inner = .ok p)) := by
  intro names
  induction names with
  | nil =>
    intro l h
    simp only [tablePredicatesAux] at h
    cases h
    simp
  | cons t ts ih =>
    intro l h
    simp only [tablePredicatesAux, bind, Except.bind] at h
    cases hsch : table_schema t with
    | some sch =>
      rw [hsch] at h
      dsimp only at h
      cases hp : normalize t sch inner with
      | error e => rw [hp] at h; cases h
      | ok p =>
        rw [hp] at h
        cases hr : tablePredicatesAux normalize inner table_schema ts with
        | error e => rw [hr] at h; cases h
        | ok rest =>
          rw [hr] at h
          cases h
          obtain ⟨ih1, ih2⟩ := ih rest hr
          refine ⟨by simp [ih1], ?_⟩
          intro t2 p2 hmem
          rcases List.mem_cons.mp hmem with heq | hmem2
          · cases heq
            constructor
            · intro hn
              rw [hn] at hsch
              cases hsch
            · intro sch2 hs2
              rw [hsch] at hs2
              cases hs2
              exact hp
          · exact ih2 t2 p2 hmem2
    | none =>
      rw [hsch] at h
      dsimp only at h
      cases hr : tablePredicatesAux normalize inner table_schema ts with
      | error e => rw [hr] at h; cases h
      | ok rest =>
        rw [hr] at h
        cases h
        obtain ⟨ih1, ih2⟩ := ih rest hr
        refine ⟨by simp [ih1], ?_⟩
        intro t2 p2 hmem
        rcases List.mem_cons.mp hmem with heq | hmem2
        · cases heq
          constructor
          · intro _
            rfl
          · intro sch2 hs2
            rw [hsch] at hs2
            cases hs2
        · exact ih2 t2 p2 hmem2

/-- C8: when `table_predicates` succeeds it returns exactly one
(table name, predicate) pair per table — the tables of the restriction
set when present, otherwise every table reported by the meta — in order;
a table for which the meta has no schema is paired with the unnormalised
inner predicate, and a table with a schema with the normalised one. -/
theorem table_predicates_closure {σ π ε : Type}
    (normalize : String → σ → π → Except ε π) (pred : InfluxRpcPredicate π)
    (meta_table_names : List String) (table_schema : String → Option σ)
    (l : List (String × π))
    (h : table_predicates normalize pred meta_table_names table_schema = .ok l) :
    l.map Prod.fst = (match pred.table_names with
        | some table_names => table_names
        | none => meta_table_names)
      ∧ (∀ t p, (t, p) ∈ l → table_schema t = none → p = pred.inner)
      ∧ (∀ t p sch, (t, p) ∈ l → table_schema t = some sch →
          normalize t sch pred.inner = .ok p) := by
  unfold table_predicates at h
  obtain ⟨h1, h2⟩ := tablePredicatesAux_spec normalize pred.inner table_schema _ l h
  exact ⟨h1, fun t p hm hn => (h2 t p hm).1 hn, fun t p sch hm hs => (h2 t p hm).2 sch hs⟩

/-- C8 witness: a restriction to tables `a` (no schema) and `b` (with a
schema) yields exactly those two pairs, in order: `a` keeps the inner
predicate `5` unnormalised, `b` gets the normalised `6`. -/
theorem table_predicates_closure_witness :
    ([("a", 5), ("b", 6)] : List (String × Nat)).map Prod.fst = ["a", "b"] := by
  have h := table_predicates_closure
    (fun _ _ n => .ok (n + 1) : String → Unit → Nat → Except Unit Nat)
    ⟨some ["a", "b"], 5⟩ ["x"] (fun t => if t = "b" then some () else none)
    [("a", 5), ("b", 6)] (by decide)
  exact h.1

end Iox

namespace Iox

/-- C3: identifiers are `len + 1`, so creation after a removal reuses a
live identifier.  Tombstones: create sequence numbers 1 and 2 (ids 1, 2),
remove id 1, create sequence number 3 — the new tombstone gets id 2,
equal to the id of the live tombstone with sequence number 2 (a fresh id
would have been 3).  Parquet files: create two files (ids 1, 2), flag id 1
deleted at time 5, `delete_old(10)` removes it, create a third file — it
also gets id 2, the id of the live second file. -/
theorem id_reuse_after_remove_and_delete_old :
    ((bindState (bindState (bindState
        (TombstoneRepo.create_or_get 1 1 1 0 10 "p" {})
        (TombstoneRepo.create_or_get 1 1 2 0 10 "p"))
        (TombstoneRepo.remove [1]))
        (TombstoneRepo.create_or_get 1 1 3 0 10 "p")).map
        (fun r => (r.1.id, r.2.tombstones.map (fun t => (t.id, t.sequence_number)))))
      = .ok (2, [(2, 2), (2, 3)])
    ∧ ((bindState (bindState (bindState
        (ParquetFileRepo.create (l0FileParams 1) {})
        (fun s => ParquetFileRepo.create (l0FileParams 2) s))
        (ParquetFileRepo.flag_for_delete 1 5))
        (fun s => bindState (ParquetFileRepo.delete_old 10 s)
          (fun s2 => ParquetFileRepo.create (l0FileParams 3) s2))).map
        (fun r => (r.1.id, r.2.parquet_files.map (fun f => (f.id, (f.object_store_id : Int))))))
      = .ok (2, [(2, 2), (2, 3)]) := by
  constructor
  · decide
  · decide

/-- C7: the order in which tied partitions are returned depends on the
`HashMap` key-enumeration order, which Rust randomises per map: on a state
with one qualifying L0 file in each of partitions 1 and 2, both
enumeration orders are admissible, yet with `k = 1` one run returns
partition 1 and the other returns partition 2 — so equal states and
arguments do not determine the result list. -/
theorem partition_selection_depends_on_hashmap_order :
    ParquetFileRepo.admissibleKeys
        (ParquetFileRepo.recentPartitionList 1 0 twoPartitionState)
        [⟨1, 1, 1, 1⟩, ⟨2, 1, 1, 1⟩]
      ∧ ParquetFileRepo.admissibleKeys
          (ParquetFileRepo.recentPartitionList 1 0 twoPartitionState)
          [⟨2, 1, 1, 1⟩, ⟨1, 1, 1, 1⟩]
      ∧ ParquetFileRepo.recent_highest_throughput_partitions_keyed 1 0 1 1
          [⟨1, 1, 1, 1⟩, ⟨2, 1, 1, 1⟩] twoPartitionState = [⟨1, 1, 1, 1⟩]
      ∧ ParquetFileRepo.recent_highest_throughput_partitions_keyed 1 0 1 1
          [⟨2, 1, 1, 1⟩, ⟨1, 1, 1, 1⟩] twoPartitionState = [⟨2, 1, 1, 1⟩] := by
  refine ⟨?_, ?_, by decide, by decide⟩
  · unfold ParquetFileRepo.admissibleKeys
    decide
  · unfold ParquetFileRepo.admissibleKeys
    decide

/-- C1 counterexample: `create_or_get` is NOT idempotent for tables when
the namespace sits at its table cap, because the cap is checked before the
natural-key lookup.  With `max_tables` updated to 1, the first
`create_or_get("t")` succeeds (id 1); the second call with the same
arguments fails with `TableCreateLimitError` instead of returning the
table again. -/
theorem table_create_or_get_not_idempotent_at_cap :
    ((bindState (bindState
        (NamespaceRepo.create "ns" "inf" 1 1 {})
        (NamespaceRepo.update_table_limit "ns" 1))
        (TableRepo.create_or_get "t" 1)).map (fun r => r.1.id) = .ok 1)
      ∧ (bindState (bindState (bindState
          (NamespaceRepo.create "ns" "inf" 1 1 {})
          (NamespaceRepo.update_table_limit "ns" 1))
          (TableRepo.create_or_get "t" 1))
          (TableRepo.create_or_get "t" 1))
        = .error (.tableCreateLimitError "t" 1) := by
  constructor
  · decide
  · decide

end Iox

namespace Iox

theorem topics_create_or_get_idem (name : String) (s : MemCollections)
    (t : TopicMetadata) (s' : MemCollections)
    (h : TopicMetadataRepo.create_or_get name s = .ok (t, s')) :
    TopicMetadataRepo.create_or_get name s' = .ok (t, s') := by
  simp only [TopicMetadataRepo.create_or_get, Except.ok.injEq, Prod.mk.injEq] at h
  obtain ⟨ht, hs⟩ := h
  subst ht
  subst hs
  simp only [TopicMetadataRepo.create_or_get]
  rw [findOrPush_idem _ _ _ (by simp)]

theorem query_pools_create_or_get_idem (name : String) (s : MemCollections)
    (q : QueryPool) (s' : MemCollections)
    (h : QueryPoolRepo.create_or_get name s = .ok (q, s')) :
    QueryPoolRepo.create_or_get name s' = .ok (q, s') := by
  simp only [QueryPoolRepo.create_or_get, Except.ok.injEq, Prod.mk.injEq] at h
  obtain ⟨ht, hs⟩ := h
  subst ht
  subst hs
  simp only [QueryPoolRepo.create_or_get]
  rw [findOrPush_idem _ _ _ (by simp)]

theorem shards_create_or_get_idem (topic : TopicMetadata) (idx : Int)
    (s : MemCollections) (sh : Shard) (s' : MemCollections)
    (h : ShardRepo.create_or_get topic idx s = .ok (sh, s')) :
    ShardRepo.create_or_get topic idx s' = .ok (sh, s') := by
  simp only [ShardRepo.create_or_get, Except.ok.injEq, Prod.mk.injEq] at h
  obtain ⟨ht, hs⟩ := h
  subst ht
  subst hs
  simp only [ShardRepo.create_or_get]
  rw [findOrPush_idem _ _ _ (by simp)]

theorem partitions_create_or_get_idem (key : String) (sid tid : Int)
    (s : MemCollections) (p : Partition) (s' : MemCollections)
    (h : PartitionRepo.create_or_get key sid tid s = .ok (p, s')) :
    PartitionRepo.create_or_get key sid tid s' = .ok (p, s') := by
  simp only [PartitionRepo.create_or_get, Except.ok.injEq, Prod.mk.injEq] at h
  obtain ⟨ht, hs⟩ := h
  subst ht
  subst hs
  simp only [PartitionRepo.create_or_get]
  rw [findOrPush_idem _ _ _ (by simp)]

theorem tombstones_create_or_get_idem (tid sid seq mn mx : Int) (pr : String)
    (s : MemCollections) (t : Tombstone) (s' : MemCollections)
    (h : TombstoneRepo.create_or_get tid sid seq mn mx pr s = .ok (t, s')) :
    TombstoneRepo.create_or_get tid sid seq mn mx pr s' = .ok (t, s') := by
  simp only [TombstoneRepo.create_or_get, Except.ok.injEq, Prod.mk.injEq] at h
  obtain ⟨ht, hs⟩ := h
  subst ht
  subst hs
  simp only [TombstoneRepo.create_or_get]
  rw [findOrPush_idem _ _ _ (by simp)]

end Iox

namespace Iox

theorem tables_create_or_get_idem (name : String) (nsid : Int) (s : MemCollections)
    (t : Table) (s' : MemCollections)
    (h : TableRepo.create_or_get name nsid s = .ok (t, s'))
    (hcap : ∀ n, s'.namespaces.find? (fun x => x.id == nsid) = some n →
      ((s'.tables.filter (fun tb => tb.namespace_id == nsid)).length : Int) < n.max_tables) :
    TableRepo.create_or_get name nsid s' = .ok (t, s') := by
  unfold TableRepo.create_or_get at h ⊢
  cases hfind : s.namespaces.find? (fun n => n.id == nsid) with
  | none => rw [hfind] at h; cases h
  | some n0 =>
    rw [hfind] at h
    dsimp only at h
    by_cases hle : n0.max_tables ≤ ((s.tables.filter (fun t => t.namespace_id == nsid)).length : Int)
    · rw [if_pos hle] at h
      cases h
    · rw [if_neg hle] at h
      simp only [Except.ok.injEq, Prod.mk.injEq] at h
      obtain ⟨ht, hs⟩ := h
      subst ht
      subst hs
      dsimp only
      rw [hfind]
      dsimp only
      have hlt := hcap n0 (by dsimp only; exact hfind)
      dsimp only at hlt
      rw [if_neg (not_le.mpr hlt)]
      rw [findOrPush_idem _ _ _ (by simp)]

theorem columns_create_or_get_idem (name : String) (tid : Int) (ct : ColumnType)
    (s : MemCollections) (c : Column) (s' : MemCollections)
    (h : ColumnRepo.create_or_get name tid ct s = .ok (c, s'))
    (hcap : ∀ t n, s'.tables.find? (fun x => x.id == tid) = some t →
      s'.namespaces.find? (fun x => x.id == t.namespace_id) = some n →
      ((s'.columns.filter (fun cl => cl.table_id == tid)).length : Int)
        < n.max_columns_per_table) :
    ColumnRepo.create_or_get name tid ct s' = .ok (c, s') := by
  unfold ColumnRepo.create_or_get at h ⊢
  cases hft : s.tables.find? (fun t => t.id == tid) with
  | none => rw [hft] at h; cases h
  | some t0 =>
    rw [hft] at h
    dsimp only at h
    cases hfn : s.namespaces.find? (fun n => n.id == t0.namespace_id) with
    | none => rw [hfn] at h; cases h
    | some n0 =>
      rw [hfn] at h
      dsimp only at h
      by_cases hle : n0.max_columns_per_table
          ≤ ((s.columns.filter (fun cl => cl.table_id == tid)).length : Int)
      · rw [if_pos hle] at h
        cases h
      · rw [if_neg hle] at h
        cases hfc : s.columns.find? (fun cl => cl.name == name && cl.table_id == tid) with
        | some c0 =>
          rw [hfc] at h
          dsimp only at h
          by_cases hty : ct == c0.column_type
          · rw [if_pos hty] at h
            simp only [Except.ok.injEq, Prod.mk.injEq] at h
            obtain ⟨hc, hs⟩ := h
            subst hc
            subst hs
            have hlt := hcap t0 n0 hft hfn
            rw [hft]
            dsimp only
            rw [hfn]
            dsimp only
            rw [if_neg (not_le.mpr hlt)]
            rw [hfc]
            dsimp only
            rw [if_pos hty]
          · rw [if_neg hty] at h
            cases h
        | none =>
          rw [hfc] at h
          dsimp only at h
          simp only [Except.ok.injEq, Prod.mk.injEq] at h
          obtain ⟨hc, hs⟩ := h
          subst hc
          subst hs
          dsimp only
          rw [hft]
          dsimp only
          rw [hfn]
          dsimp only
          have hlt := hcap t0 n0 (by dsimp only; exact hft) (by dsimp only; exact hfn)
          dsimp only at hlt
          rw [if_neg (not_le.mpr hlt)]
          rw [List.find?_append, hfc]
          simp

end Iox

namespace Iox

/-- C1 (amended): a successful `create_or_get` followed by a second call
with the same natural key succeeds, returns the same entity (hence the
same identifier) and leaves the store unchanged — unconditionally for
topics, query pools, shards, partitions and tombstones; for tables and
columns provided the namespace's table cap (resp. the table's column cap)
is not yet reached at the time of the second call, because `mem.rs` checks
the cap before the natural-key lookup. -/
theorem create_or_get_idempotent :
    (∀ name s t s', TopicMetadataRepo.create_or_get name s = .ok (t, s') →
        TopicMetadataRepo.create_or_get name s' = .ok (t, s'))
  ∧ (∀ name s q s', QueryPoolRepo.create_or_get name s = .ok (q, s') →
        QueryPoolRepo.create_or_get name s' = .ok (q, s'))
  ∧ (∀ topic idx s sh s', ShardRepo.create_or_get topic idx s = .ok (sh, s') →
        ShardRepo.create_or_get topic idx s' = .ok (sh, s'))
  ∧ (∀ key sid tid s p s', PartitionRepo.create_or_get key sid tid s = .ok (p, s') →
        PartitionRepo.create_or_get key sid tid s' = .ok (p, s'))
  ∧ (∀ tid sid seq mn mx pr s t s',
        TombstoneRepo.create_or_get tid sid seq mn mx pr s = .ok (t, s') →
        TombstoneRepo.create_or_get tid sid seq mn mx pr s' = .ok (t, s'))
  ∧ (∀ name nsid s t s', TableRepo.create_or_get name nsid s = .ok (t, s') →
        (∀ n, s'.namespaces.find? (fun x => x.id == nsid) = some n →
          ((s'.tables.filter (fun tb => tb.namespace_id == nsid)).length : Int)
            < n.max_tables) →
        TableRepo.create_or_get name nsid s' = .ok (t, s'))
  ∧ (∀ name tid ct s c s', ColumnRepo.create_or_get name tid ct s = .ok (c, s') →
        (∀ t n, s'.tables.find? (fun x => x.id == tid) = some t →
          s'.namespaces.find? (fun x => x.id == t.namespace_id) = some n →
          ((s'.columns.filter (fun cl => cl.table_id == tid)).length : Int)
            < n.max_columns_per_table) →
        ColumnRepo.create_or_get name tid ct s' = .ok (c, s')) :=
  ⟨fun name s t s' h => topics_create_or_get_idem name s t s' h,
   fun name s q s' h => query_pools_create_or_get_idem name s q s' h,
   fun topic idx s sh s' h => shards_create_or_get_idem topic idx s sh s' h,
   fun key sid tid s p s' h => partitions_create_or_get_idem key sid tid s p s' h,
   fun tid sid seq mn mx pr s t s' h => tombstones_create_or_get_idem tid sid seq mn mx pr s t s' h,
   fun name nsid s t s' h hcap => tables_create_or_get_idem name nsid s t s' h hcap,
   fun name tid ct s c s' h hcap => columns_create_or_get_idem name tid ct s c s' h hcap⟩

/-- C1 witness: re-getting topic `a` returns it unchanged; re-getting
table `t` in a namespace with 1 of 10000 tables succeeds and returns the
same table with the store unchanged. -/
theorem create_or_get_idempotent_witness :
    TopicMetadataRepo.create_or_get "a" { topics := [⟨1, "a"⟩] }
        = .ok (⟨1, "a"⟩, { topics := [⟨1, "a"⟩] })
      ∧ TableRepo.create_or_get "t" 1
          { namespaces := [⟨1, "ns", 1, 1, some "inf", 10000, 1000⟩]
            tables := [⟨1, 1, "t"⟩] }
          = .ok (⟨1, 1, "t"⟩,
              { namespaces := [⟨1, "ns", 1, 1, some "inf", 10000, 1000⟩]
                tables := [⟨1, 1, "t"⟩] }) := by
  constructor
  · exact create_or_get_idempotent.1 "a" {} ⟨1, "a"⟩ { topics := [⟨1, "a"⟩] } (by decide)
  · refine create_or_get_idempotent.2.2.2.2.2.1 "t" 1 { namespaces := [⟨1, "ns", 1, 1, some "inf", 10000, 1000⟩] }
      ⟨1, 1, "t"⟩ _ (by decide) ?_
    intro n hn
    have h2 : List.find? (fun x => x.id == (1 : Int))
        [(⟨1, "ns", 1, 1, some "inf", 10000, 1000⟩ : Namespace)]
        = some ⟨1, "ns", 1, 1, some "inf", 10000, 1000⟩ := by decide
    rw [show (({ namespaces := [⟨1, "ns", 1, 1, some "inf", 10000, 1000⟩], tables := [⟨1, 1, "t"⟩] } : MemCollections)).namespaces = [(⟨1, "ns", 1, 1, some "inf", 10000, 1000⟩ : Namespace)] from rfl, h2] at hn
    injection hn with hn
    subst hn
    decide

end Iox

namespace Iox

theorem tables_create_or_get_namespaces_frame (name : String) (nsid : Int)
    (s : MemCollections) (t : Table) (s' : MemCollections)
    (h : TableRepo.create_or_get name nsid s = .ok (t, s')) :
    s'.namespaces = s.namespaces := by
  unfold TableRepo.create_or_get at h
  split at h
  · cases h
  · dsimp only at h
    split at h
    · cases h
    · simp only [Except.ok.injEq, Prod.mk.injEq] at h
      obtain ⟨-, hs⟩ := h
      subst hs
      rfl

theorem columns_create_or_get_namespaces_frame (name : String) (tid : Int)
    (ct : ColumnType) (s : MemCollections) (c : Column) (s' : MemCollections)
    (h : ColumnRepo.create_or_get name tid ct s = .ok (c, s')) :
    s'.namespaces = s.namespaces := by
  unfold ColumnRepo.create_or_get at h
  split at h
  · cases h
  · split at h
    · cases h
    · dsimp only at h
      split at h
      · cases h
      · split at h
        · split at h
          · simp only [Except.ok.injEq, Prod.mk.injEq] at h
            obtain ⟨-, hs⟩ := h
            subst hs
            rfl
          · cases h
        · simp only [Except.ok.injEq, Prod.mk.injEq] at h
          obtain ⟨-, hs⟩ := h
          subst hs
          rfl

theorem update_sort_key_namespaces_frame (pid : Int) (sk : List String)
    (s : MemCollections) (p : Partition) (s' : MemCollections)
    (h : PartitionRepo.update_sort_key pid sk s = .ok (p, s')) :
    s'.namespaces = s.namespaces := by
  unfold PartitionRepo.update_sort_key at h
  split at h
  · simp only [Except.ok.injEq, Prod.mk.injEq] at h
    obtain ⟨-, hs⟩ := h
    subst hs
    rfl
  · cases h

theorem update_psn_namespaces_frame (pid seq : Int) (s : MemCollections)
    (u : Unit) (s' : MemCollections)
    (h : PartitionRepo.update_persisted_sequence_number pid seq s = .ok (u, s')) :
    s'.namespaces = s.namespaces := by
  unfold PartitionRepo.update_persisted_sequence_number at h
  split at h
  · simp only [Except.ok.injEq, Prod.mk.injEq] at h
    obtain ⟨-, hs⟩ := h
    subst hs
    rfl
  · cases h

theorem flag_for_delete_namespaces_frame (id now : Int) (s : MemCollections)
    (u : Unit) (s' : MemCollections)
    (h : ParquetFileRepo.flag_for_delete id now s = .ok (u, s')) :
    s'.namespaces = s.namespaces := by
  unfold ParquetFileRepo.flag_for_delete at h
  split at h
  · simp only [Except.ok.injEq, Prod.mk.injEq] at h
    obtain ⟨-, hs⟩ := h
    subst hs
    rfl
  · cases h

theorem parquet_create_namespaces_frame (params : ParquetFileParams)
    (s : MemCollections) (f : ParquetFile) (s' : MemCollections)
    (h : ParquetFileRepo.create params s = .ok (f, s')) :
    s'.namespaces = s.namespaces := by
  unfold ParquetFileRepo.create at h
  split at h
  · cases h
  · simp only [Except.ok.injEq, Prod.mk.injEq] at h
    obtain ⟨-, hs⟩ := h
    subst hs
    rfl

theorem processed_tombstones_create_namespaces_frame (pfid tsid : Int)
    (s : MemCollections) (pt : ProcessedTombstone) (s' : MemCollections)
    (h : ProcessedTombstoneRepo.create pfid tsid s = .ok (pt, s')) :
    s'.namespaces = s.namespaces := by
  unfold ProcessedTombstoneRepo.create at h
  split at h
  · cases h
  · split at h
    · cases h
    · split at h
      · cases h
      · simp only [Except.ok.injEq, Prod.mk.injEq] at h
        obtain ⟨-, hs⟩ := h
        subst hs
        rfl

theorem applyOpState_namespaces (op : CatalogOp) (s : MemCollections)
    (hop : op.isLimitUpdate = false) :
    (applyOpState op s).namespaces = s.namespaces
      ∨ ∃ nw, (applyOpState op s).namespaces = s.namespaces ++ [nw] := by
  cases op with
  | topicsCreateOrGet name => exact Or.inl rfl
  | queryPoolsCreateOrGet name => exact Or.inl rfl
  | namespacesCreate name r tid qid =>
    by_cases hdup : (s.namespaces.any fun n => n.name == name) = true
    · exact Or.inl (by simp [applyOpState, NamespaceRepo.create, hdup])
    · have hw : (applyOpState (CatalogOp.namespacesCreate name r tid qid) s).namespaces
          = s.namespaces ++ [⟨(s.namespaces.length : Int) + 1, name, tid, qid, some r, 10000, 1000⟩] := by
        simp [applyOpState, NamespaceRepo.create, hdup]
      exact Or.inr ⟨_, hw⟩
  | namespacesUpdateTableLimit name new_max =>
    simp [CatalogOp.isLimitUpdate] at hop
  | namespacesUpdateColumnLimit name new_max =>
    simp [CatalogOp.isLimitUpdate] at hop
  | tablesCreateOrGet name nsid =>
    left
    simp only [applyOpState]
    cases h : TableRepo.create_or_get name nsid s with
    | error e => rfl
    | ok r => exact tables_create_or_get_namespaces_frame name nsid s r.1 r.2 (by rw [h])
  | columnsCreateOrGet name tid ct =>
    left
    simp only [applyOpState]
    cases h : ColumnRepo.create_or_get name tid ct s with
    | error e => rfl
    | ok r => exact columns_create_or_get_namespaces_frame name tid ct s r.1 r.2 (by rw [h])
  | shardsCreateOrGet topic idx => exact Or.inl rfl
  | shardsUpdateMinUnpersisted sid seq => exact Or.inl rfl
  | partitionsCreateOrGet key sid tid => exact Or.inl rfl
  | partitionsUpdateSortKey pid sk =>
    left
    simp only [applyOpState]
    cases h : PartitionRepo.update_sort_key pid sk s with
    | error e => rfl
    | ok r => exact update_sort_key_namespaces_frame pid sk s r.1 r.2 (by rw [h])
  | partitionsRecordSkippedCompaction pid reason now =>
    left
    by_cases hsc : (s.skipped_compactions.any fun sc => sc.partition_id == pid) = true <;>
      simp [applyOpState, PartitionRepo.record_skipped_compaction, hsc]
  | partitionsUpdatePersistedSequenceNumber pid seq =>
    left
    simp only [applyOpState]
    cases h : PartitionRepo.update_persisted_sequence_number pid seq s with
    | error e => rfl
    | ok r => exact update_psn_namespaces_frame pid seq s r.1 r.2 (by rw [h])
  | tombstonesCreateOrGet tid sid seq mn mx pr => exact Or.inl rfl
  | tombstonesRemove ids => exact Or.inl rfl
  | parquetFilesCreate params =>
    left
    simp only [applyOpState]
    cases h : ParquetFileRepo.create params s with
    | error e => rfl
    | ok r => exact parquet_create_namespaces_frame params s r.1 r.2 (by rw [h])
  | parquetFlagForDelete id now =>
    left
    simp only [applyOpState]
    cases h : ParquetFileRepo.flag_for_delete id now s with
    | error e => rfl
    | ok r => exact flag_for_delete_namespaces_frame id now s r.1 r.2 (by rw [h])
  | parquetDeleteOld older_than => exact Or.inl rfl
  | parquetUpdateCompactionLevel ids level => exact Or.inl rfl
  | processedTombstonesCreate pfid tsid =>
    left
    simp only [applyOpState]
    cases h : ProcessedTombstoneRepo.create pfid tsid s with
    | error e => rfl
    | ok r => exact processed_tombstones_create_namespaces_frame pfid tsid s r.1 r.2 (by rw [h])

end Iox

namespace Iox

/-- C10: every namespace returned by `namespaces.create` carries
`max_tables = 10000` and `max_columns_per_table = 1000` whatever the
arguments, with `retention_duration = Some(retention)`; the caps of an
existing namespace are changed only by `update_table_limit` /
`update_column_limit` — every other catalog mutation leaves every existing
namespace row (caps included) in the store unchanged. -/
theorem namespace_caps_fixed_at_create :
    (∀ name retention tid qid s ns s',
      NamespaceRepo.create name retention tid qid s = .ok (ns, s') →
        ns.max_tables = 10000 ∧ ns.max_columns_per_table = 1000
          ∧ ns.retention_duration = some retention)
  ∧ (∀ name new_max s ns s',
      NamespaceRepo.update_table_limit name new_max s = .ok (ns, s') →
        ns.max_tables = new_max)
  ∧ (∀ name new_max s ns s',
      NamespaceRepo.update_column_limit name new_max s = .ok (ns, s') →
        ns.max_columns_per_table = new_max)
  ∧ (∀ op s n, op.isLimitUpdate = false → n ∈ s.namespaces →
      n ∈ (applyOpState op s).namespaces) := by
  refine ⟨?_, ?_, ?_, ?_⟩
  · intro name retention tid qid s ns s' h
    unfold NamespaceRepo.create at h
    split at h
    · cases h
    · simp only [Except.ok.injEq, Prod.mk.injEq] at h
      obtain ⟨hns, -⟩ := h
      subst hns
      exact ⟨rfl, rfl, rfl⟩
  · intro name new_max s ns s' h
    unfold NamespaceRepo.update_table_limit at h
    split at h
    · simp only [Except.ok.injEq, Prod.mk.injEq] at h
      obtain ⟨hns, -⟩ := h
      subst hns
      rfl
    · cases h
  · intro name new_max s ns s' h
    unfold NamespaceRepo.update_column_limit at h
    split at h
    · simp only [Except.ok.injEq, Prod.mk.injEq] at h
      obtain ⟨hns, -⟩ := h
      subst hns
      rfl
    · cases h
  · intro op s n hop hn
    rcases applyOpState_namespaces op s hop with heq | ⟨nw, heq⟩
    · rw [heq]
      exact hn
    · rw [heq]
      exact List.mem_append_left _ hn

/-- C10 witness: creating namespace `ns` yields the 10000/1000 caps and
`Some "inf"` retention; creating a table touches no existing namespace
row. -/
theorem namespace_caps_fixed_at_create_witness :
    ((10000 : Int) = 10000 ∧ (1000 : Int) = 1000 ∧ (some "inf" = some "inf"))
      ∧ (⟨1, "ns", 1, 1, some "inf", 10000, 1000⟩ : Namespace)
          ∈ (applyOpState (.tablesCreateOrGet "t" 1)
              { namespaces := [⟨1, "ns", 1, 1, some "inf", 10000, 1000⟩] }).namespaces := by
  constructor
  · exact namespace_caps_fixed_at_create.1 "ns" "inf" 1 1 {}
      ⟨1, "ns", 1, 1, some "inf", 10000, 1000⟩ { namespaces := [⟨1, "ns", 1, 1, some "inf", 10000, 1000⟩] }
      (by decide)
  · exact namespace_caps_fixed_at_create.2.2.2 (.tablesCreateOrGet "t" 1)
      { namespaces := [⟨1, "ns", 1, 1, some "inf", 10000, 1000⟩] }
      ⟨1, "ns", 1, 1, some "inf", 10000, 1000⟩ (by decide) (by decide)

end Iox

namespace Iox

theorem insertRankDesc_perm {α β : Type} [LinearOrder β] (rank : α → β) (x : α)
    (l : List α) : (ParquetFileRepo.insertRankDesc rank x l).Perm (x :: l) := by
  induction l with
  | nil => simp [ParquetFileRepo.insertRankDesc]
  | cons y ys ih =>
    unfold ParquetFileRepo.insertRankDesc
    by_cases h : rank y ≤ rank x
    · rw [if_pos h]
    · rw [if_neg h]
      exact (ih.cons y).trans (List.Perm.swap x y ys)

theorem sortRankDesc_perm {α β : Type} [LinearOrder β] (rank : α → β) (l : List α) :
    (ParquetFileRepo.sortRankDesc rank l).Perm l := by
  induction l with
  | nil => exact List.Perm.refl _
  | cons x xs ih =>
    exact (insertRankDesc_perm rank x _).trans (ih.cons x)

theorem insertRankDesc_pairwise {α β : Type} [LinearOrder β] (rank : α → β) (x : α)
    (l : List α) (hl : l.Pairwise (fun a b => rank b ≤ rank a)) :
    (ParquetFileRepo.insertRankDesc rank x l).Pairwise (fun a b => rank b ≤ rank a) := by
  induction l with
  | nil => simp [ParquetFileRepo.insertRankDesc]
  | cons y ys ih =>
    unfold ParquetFileRepo.insertRankDesc
    rcases List.pairwise_cons.mp hl with ⟨hy, hys⟩
    by_cases h : rank y ≤ rank x
    · rw [if_pos h]
      refine List.pairwise_cons.mpr ⟨?_, hl⟩
      intro b hb
      rcases List.mem_cons.mp hb with rfl | hb2
      · exact h
      · exact le_trans (hy b hb2) h
    · rw [if_neg h]
      refine List.pairwise_cons.mpr ⟨?_, ih hys⟩
      intro b hb
      rcases List.mem_cons.mp ((insertRankDesc_perm rank x ys).mem_iff.mp hb) with rfl | hb2
      · exact le_of_not_le h
      · exact hy b hb2

theorem sortRankDesc_pairwise {α β : Type} [LinearOrder β] (rank : α → β) (l : List α) :
    (ParquetFileRepo.sortRankDesc rank l).Pairwise (fun a b => rank b ≤ rank a) := by
  induction l with
  | nil => simp [ParquetFileRepo.sortRankDesc]
  | cons x xs ih => exact insertRankDesc_pairwise rank x _ ih

theorem recentQualifyingPairs_mem (shard since : Int) (minFiles : Nat)
    (keys : List PartitionParam) (s : MemCollections) (x : PartitionParam × Nat)
    (hx : x ∈ ParquetFileRepo.recentQualifyingPairs shard since minFiles keys s) :
    x.2 = (ParquetFileRepo.recentPartitionList shard since s).count x.1
      ∧ x.1 ∈ keys
      ∧ minFiles ≤ x.2
      ∧ x.1.partition_id ∉ s.skipped_compactions.map (fun sc => sc.partition_id) := by
  simp only [ParquetFileRepo.recentQualifyingPairs, List.mem_filter, List.mem_map,
    Bool.and_eq_true, decide_eq_true_eq, Bool.not_eq_true'] at hx
  obtain ⟨⟨q, hq, rfl⟩, hmin, hskip⟩ := hx
  refine ⟨rfl, hq, hmin, ?_⟩
  simpa using hskip

theorem recentQualifyingPairs_mem_of (shard since : Int) (minFiles : Nat)
    (keys : List PartitionParam) (s : MemCollections) (p : PartitionParam)
    (hk : p ∈ keys)
    (hmin : minFiles ≤ (ParquetFileRepo.recentPartitionList shard since s).count p)
    (hskip : p.partition_id ∉ s.skipped_compactions.map (fun sc => sc.partition_id)) :
    (p, (ParquetFileRepo.recentPartitionList shard since s).count p)
      ∈ ParquetFileRepo.recentQualifyingPairs shard since minFiles keys s := by
  simp only [ParquetFileRepo.recentQualifyingPairs, List.mem_filter, List.mem_map,
    Bool.and_eq_true, decide_eq_true_eq, Bool.not_eq_true']
  refine ⟨⟨p, hk, rfl⟩, hmin, ?_⟩
  simpa using hskip

end Iox

namespace Iox

/-- C4: `recent_highest_throughput_partitions(shard, since, min_files, k)`
returns only partitions with at least `min_files` (and at least one)
matching files — non-deleted L0 on the shard with `created_at > since` —
that are not in `SkippedCompaction`; the result is ordered by that file
count descending, holds at most `k` partitions, and every qualifying
partition is in it unless the `k` budget is exhausted.  On five L0 files
with `created_at = 100` for partition 7 on shard 1, the call with
`since = 50, min_files = 3, k = 10` returns exactly that partition, and
with `min_files = 6` it returns nothing. -/
theorem recent_highest_throughput_partitions_spec :
    (∀ shard since minFiles k s p,
        p ∈ ParquetFileRepo.recent_highest_throughput_partitions shard since minFiles k s →
          minFiles ≤ (ParquetFileRepo.recentPartitionList shard since s).count p
            ∧ 0 < (ParquetFileRepo.recentPartitionList shard since s).count p
            ∧ p.partition_id ∉ s.skipped_compactions.map (fun sc => sc.partition_id))
  ∧ (∀ shard since minFiles k s,
        (ParquetFileRepo.recent_highest_throughput_partitions shard since minFiles k s).length
          ≤ k)
  ∧ (∀ shard since minFiles k s,
        (ParquetFileRepo.recent_highest_throughput_partitions shard since minFiles k s).Pairwise
          (fun a b => (ParquetFileRepo.recentPartitionList shard since s).count b
            ≤ (ParquetFileRepo.recentPartitionList shard since s).count a))
  ∧ (∀ shard since minFiles k s p,
        minFiles ≤ (ParquetFileRepo.recentPartitionList shard since s).count p →
        0 < (ParquetFileRepo.recentPartitionList shard since s).count p →
        p.partition_id ∉ s.skipped_compactions.map (fun sc => sc.partition_id) →
          p ∈ ParquetFileRepo.recent_highest_throughput_partitions shard since minFiles k s
            ∨ (ParquetFileRepo.recent_highest_throughput_partitions
                shard since minFiles k s).length = k)
  ∧ ParquetFileRepo.recent_highest_throughput_partitions 1 50 3 10 fiveL0FilesState
      = [⟨7, 1, 1, 1⟩]
  ∧ ParquetFileRepo.recent_highest_throughput_partitions 1 50 6 10 fiveL0FilesState = [] := by
  have hmem : ∀ (shard since : Int) (minFiles k : Nat) s (p : PartitionParam),
      p ∈ ParquetFileRepo.recent_highest_throughput_partitions shard since minFiles k s →
      ∃ x : PartitionParam × Nat,
        x ∈ ParquetFileRepo.recentQualifyingPairs shard since minFiles
          (ParquetFileRepo.recentPartitionList shard since s).dedup s ∧ x.1 = p := by
    intro shard since minFiles k s p hp
    unfold ParquetFileRepo.recent_highest_throughput_partitions
      ParquetFileRepo.recent_highest_throughput_partitions_keyed at hp
    have hp2 := List.Sublist.mem hp (List.take_sublist _ _)
    rcases List.mem_map.mp hp2 with ⟨x, hxs, hfst⟩
    exact ⟨x, (sortRankDesc_perm _ _).mem_iff.mp hxs, hfst⟩
  refine ⟨?_, ?_, ?_, ?_, by decide, by decide⟩
  · intro shard since minFiles k s p hp
    rcases hmem shard since minFiles k s p hp with ⟨x, hx, rfl⟩
    obtain ⟨hcnt, hkeys, hmin, hskip⟩ := recentQualifyingPairs_mem _ _ _ _ _ x hx
    rw [← hcnt]
    refine ⟨hmin, ?_, hskip⟩
    rw [hcnt]
    exact List.count_pos_iff.mpr (List.mem_dedup.mp hkeys)
  · intro shard since minFiles k s
    unfold ParquetFileRepo.recent_highest_throughput_partitions
      ParquetFileRepo.recent_highest_throughput_partitions_keyed
    exact List.length_take_le _ _
  · intro shard since minFiles k s
    unfold ParquetFileRepo.recent_highest_throughput_partitions
      ParquetFileRepo.recent_highest_throughput_partitions_keyed
    refine List.Pairwise.sublist (List.take_sublist _ _) ?_
    rw [List.pairwise_map]
    refine List.Pairwise.imp_of_mem ?_ (sortRankDesc_pairwise (fun x => x.2) _)
    intro a b ha hb hle
    have ha2 := recentQualifyingPairs_mem _ _ _ _ _ a ((sortRankDesc_perm _ _).mem_iff.mp ha)
    have hb2 := recentQualifyingPairs_mem _ _ _ _ _ b ((sortRankDesc_perm _ _).mem_iff.mp hb)
    rw [← ha2.1, ← hb2.1]
    exact hle
  · intro shard since minFiles k s p hmin hpos hskip
    have hk : p ∈ (ParquetFileRepo.recentPartitionList shard since s).dedup :=
      List.mem_dedup.mpr (List.count_pos_iff.mp hpos)
    have hpair := recentQualifyingPairs_mem_of shard since minFiles _ s p hk hmin hskip
    have hpL : p ∈ (ParquetFileRepo.sortRankDesc (fun x : PartitionParam × Nat => x.2)
        (ParquetFileRepo.recentQualifyingPairs shard since minFiles
          (ParquetFileRepo.recentPartitionList shard since s).dedup s)).map (fun x => x.1) :=
      List.mem_map.mpr ⟨_, (sortRankDesc_perm _ _).mem_iff.mpr hpair, rfl⟩
    unfold ParquetFileRepo.recent_highest_throughput_partitions
      ParquetFileRepo.recent_highest_throughput_partitions_keyed
    by_cases hlen : k ≤ ((ParquetFileRepo.sortRankDesc (fun x : PartitionParam × Nat => x.2)
        (ParquetFileRepo.recentQualifyingPairs shard since minFiles
          (ParquetFileRepo.recentPartitionList shard since s).dedup s)).map
        (fun x => x.1)).length
    · right
      rw [List.length_take]
      omega
    · left
      rw [List.take_of_length_le (by omega)]
      exact hpL

/-- C4 witness: partition 7 qualifies on the five-file state with
`min_files = 3` (count 5 ≥ 3, not skipped), so it is returned or the
budget of 10 is full; combined with the proved bound it is in the result,
as the concrete conjunct also shows. -/
theorem recent_highest_throughput_partitions_spec_witness :
    (⟨7, 1, 1, 1⟩ : PartitionParam)
        ∈ ParquetFileRepo.recent_highest_throughput_partitions 1 50 3 10 fiveL0FilesState
      ∨ (ParquetFileRepo.recent_highest_throughput_partitions 1 50 3 10
          fiveL0FilesState).length = 10 :=
  recent_highest_throughput_partitions_spec.2.2.2.1 1 50 3 10 fiveL0FilesState
    ⟨7, 1, 1, 1⟩ (by decide) (by decide) (by decide)

end Iox
